import Mathlib

/-!
# huskyCI — Bandit output analysis (`api/analysis/bandit.go`)

A shallow embedding of the Go package `analysis`:

* `BanditStartAnalysis` reads the raw output of a Bandit container, writes verdicts through
  `updateInfoAndResultBasedOnCID` and hands the parsed output to
  `updateHuskyCIResultsBasedOnRID`;
* `prepareHuskyCIBanditOutput` rewrites the parsed output into severity buckets.

Go strings are embedded as Lean `String` (the scanner output is UTF-8 text), Go `int` as `Int`,
slices as `List`.  `BanditStartAnalysis` returns nothing in Go; everything it does is calls of
collaborators that live outside the file (`encoding/json`, the persistence helpers, the logger).
The embedding therefore returns the ordered list of collaborator calls made by one invocation,
and takes the behaviour of the collaborators as an environment.
-/

namespace analysis

/-! ## Data model -/

/-- Result is the struct that holds detailed information of issues from Bandit output. -/
structure Result where
  Code : String
  Filename : String
  IssueConfidence : String
  IssueSeverity : String
  IssueText : String
  LineNumber : Int
  LineRange : List Int
  TestID : String
  TestName : String
deriving DecidableEq

/-- BanditOutput is the struct that holds all data from Bandit output.  `Errors` is a
`json.RawMessage` (a byte slice): `none` is the nil slice, `some raw` the captured raw JSON. -/
structure BanditOutput where
  Errors : Option String
  Results : List Result
deriving DecidableEq

/-- Modelled from the spec: the declaration of `types.HuskyCIVulnerability` is not part of the
source file.  The record has the fields that `prepareHuskyCIBanditOutput` assigns, which are the
fields the specification lists for a normalized vulnerability (language, tool name, severity,
confidence, details, file, stringified line, code). -/
structure HuskyCIVulnerability where
  Language : String
  SecurityTool : String
  Severity : String
  Confidence : String
  Details : String
  File : String
  Line : String
  Code : String
deriving DecidableEq

/-- Modelled from the spec: the declaration of `types.HuskyCIBanditOutput` is not part of the
source file.  It has the three severity buckets that `prepareHuskyCIBanditOutput` appends to. -/
structure HuskyCIBanditOutput where
  LowVulnsBandit : List HuskyCIVulnerability
  MediumVulnsBandit : List HuskyCIVulnerability
  HighVulnsBandit : List HuskyCIVulnerability
deriving DecidableEq

/-! ## Library functions used by the file -/

/-- The decimal digit character of `d` (for `d < 10`). -/
def digitChar (d : Nat) : Char := Char.ofNat (48 + d)

/-- Decimal digits of `n`, most significant first; `fuel` bounds the number of digits. -/
def decimalDigits : Nat → Nat → List Char
  | 0, _ => []
  | fuel + 1, n =>
    if n < 10 then [digitChar n] else decimalDigits fuel (n / 10) ++ [digitChar (n % 10)]

/-- Go `strconv.Itoa`: the base-10 text of an integer, with a leading `-` for negatives. -/
def strconv.Itoa (i : Int) : String :=
  match i with
  | Int.ofNat n => String.mk (decimalDigits (n + 1) n)
  | Int.negSucc n => String.mk ('-' :: decimalDigits (n + 2) (n + 1))

/-- Go `strings.Contains` on character lists: some suffix of `s` starts with `substr`. -/
def containsChars : List Char → List Char → Bool
  | [], substr => substr.isEmpty
  | c :: cs, substr => substr.isPrefixOf (c :: cs) || containsChars cs substr

/-- Go `strings.Contains`: reports whether `substr` is within `s`. -/
def strings.Contains (s substr : String) : Bool := containsChars s.toList substr.toList

/-! ## Collaborator calls -/

/-- One call made by `BanditStartAnalysis` to a collaborator outside the file. -/
inductive Event where
  /-- The call `updateInfoAndResultBasedOnCID(msg, status, CID)`: a verdict write. -/
  | updateInfoAndResultBasedOnCID (msg status CID : String)
  /-- The call `updateHuskyCIResultsBasedOnRID(RID, securityTool, output)`. -/
  | updateHuskyCIResultsBasedOnRID (RID securityTool : String) (output : BanditOutput)
  /-- The call `log.Error(action, info, msgCode, message, err)`. -/
  | logError (action info : String) (msgCode : Nat) (message err : String)
deriving DecidableEq

/-- The collaborators of one invocation.  `jsonUnmarshal` is `json.Unmarshal` into a
`BanditOutput` (`Except.error` carries the Go error).  `persistFails history call` tells whether
the persistence call `call`, made after the calls in `history`, returns a non-nil error. -/
structure Env where
  jsonUnmarshal : String → Except String BanditOutput
  persistFails : List Event → Event → Bool

/-- Perform the persistence call `e` after the calls `t`: the extended history and whether the
call returned an error. -/
def Env.call (env : Env) (t : List Event) (e : Event) : List Event × Bool :=
  (t ++ [e], env.persistFails t e)

/-! ## `BanditStartAnalysis` -/

/-- The loop of lines 71-77: stop at the first issue with severity HIGH or MEDIUM and confidence
HIGH.  The accumulator is `(issueMessage, cResult)`. -/
def classifyLoop : List Result → String × String → String × String
  | [], acc => acc
  | issue :: rest, acc =>
    if (issue.IssueSeverity = "HIGH" ∨ issue.IssueSeverity = "MEDIUM")
        ∧ issue.IssueConfidence = "HIGH" then
      ("Issues found.", "failed")
    else classifyLoop rest acc

/-- Lines 68-77: `(issueMessage, cResult)` after the loop, starting from
`("No issues found.", "passed")`. -/
def classify (results : List Result) : String × String :=
  classifyLoop results ("No issues found.", "passed")

/-- Lines 68-85: classification, the verdict write and the delivery of the parsed output. -/
def classifyAndDeliver (env : Env) (CID RID : String) (banditResult : BanditOutput)
    (t : List Event) : List Event :=
  let verdict := classify banditResult.Results
  let w := env.call t (Event.updateInfoAndResultBasedOnCID verdict.1 verdict.2 CID)
  if w.2 then w.1
  else
    let d := env.call w.1 (Event.updateHuskyCIResultsBasedOnRID RID "bandit" banditResult)
    d.1

/-- Lines 46-85: everything after the clone check. -/
def parseAndAnalyse (env : Env) (CID cOutput RID : String) (t : List Event) : List Event :=
  match env.jsonUnmarshal cOutput with
  | Except.error err => t ++ [Event.logError "BanditStartAnalysis" "BANDIT" 1006 cOutput err]
  | Except.ok banditResult =>
    if banditResult.Results.length = 0 then
      (env.call t (Event.updateInfoAndResultBasedOnCID "No issues found." "passed" CID)).1
    else if banditResult.Errors ≠ none then
      let w := env.call t
        (Event.updateInfoAndResultBasedOnCID "Internal error running Bandit." "error" CID)
      if w.2 then w.1 else classifyAndDeliver env CID RID banditResult w.1
    else classifyAndDeliver env CID RID banditResult t

/-- BanditStartAnalysis analyses the output from Bandit and sets a cResult based on it.  The
value is the list of collaborator calls of the invocation, oldest first. -/
def BanditStartAnalysis (env : Env) (CID cOutput RID : String) : List Event :=
  if strings.Contains cOutput "ERROR_CLONING" then
    let w := env.call []
      (Event.updateInfoAndResultBasedOnCID "Error clonning repository" "error" CID)
    if w.2 then w.1 else parseAndAnalyse env CID cOutput RID w.1
  else parseAndAnalyse env CID cOutput RID []

/-! ## `prepareHuskyCIBanditOutput` -/

/-- Lines 94-102: the record built for one issue. -/
def banditVulnOf (issue : Result) : HuskyCIVulnerability :=
  { Language := "Python"
    SecurityTool := "Bandit"
    Severity := issue.IssueSeverity
    Confidence := issue.IssueConfidence
    Details := issue.IssueText
    File := issue.Filename
    Line := strconv.Itoa issue.LineNumber
    Code := issue.Code }

/-- Lines 94-111: one iteration of the loop, appending the record to the bucket selected by the
`switch` on its severity (no default case). -/
def prepareStep (huskyCIbanditResults : HuskyCIBanditOutput) (issue : Result) :
    HuskyCIBanditOutput :=
  let banditVuln := banditVulnOf issue
  if banditVuln.Severity = "LOW" then
    { huskyCIbanditResults with
      LowVulnsBandit := huskyCIbanditResults.LowVulnsBandit ++ [banditVuln] }
  else if banditVuln.Severity = "MEDIUM" then
    { huskyCIbanditResults with
      MediumVulnsBandit := huskyCIbanditResults.MediumVulnsBandit ++ [banditVuln] }
  else if banditVuln.Severity = "HIGH" then
    { huskyCIbanditResults with
      HighVulnsBandit := huskyCIbanditResults.HighVulnsBandit ++ [banditVuln] }
  else huskyCIbanditResults

/-- The loop of lines 93-112 over the remaining issues. -/
def prepareLoop : List Result → HuskyCIBanditOutput → HuskyCIBanditOutput
  | [], acc => acc
  | issue :: rest, acc => prepareLoop rest (prepareStep acc issue)

/-- prepareHuskyCIBanditOutput will prepare Bandit output to be added into pythonResults
struct.  The result starts as the zero value (three nil buckets). -/
def prepareHuskyCIBanditOutput (banditOutput : BanditOutput) : HuskyCIBanditOutput :=
  prepareLoop banditOutput.Results
    { LowVulnsBandit := [], MediumVulnsBandit := [], HighVulnsBandit := [] }

/-! ## Observations on a list of calls -/

/-- The verdict writes of a call list, in order, as `(msg, status, CID)`. -/
def verdictWrites : List Event → List (String × String × String)
  | [] => []
  | Event.updateInfoAndResultBasedOnCID msg status CID :: rest =>
    (msg, status, CID) :: verdictWrites rest
  | _ :: rest => verdictWrites rest

/-- The deliveries of a parsed output in a call list, in order. -/
def deliveries : List Event → List (String × String × BanditOutput)
  | [] => []
  | Event.updateHuskyCIResultsBasedOnRID RID tool output :: rest =>
    (RID, tool, output) :: deliveries rest
  | _ :: rest => deliveries rest

/-- The message codes of the log entries in a call list, in order. -/
def logCodes : List Event → List Nat
  | [] => []
  | Event.logError _ _ msgCode _ _ :: rest => msgCode :: logCodes rest
  | _ :: rest => logCodes rest

/-- Whether a call is a persistence call (a verdict write or the delivery of the parsed output),
as opposed to a log entry. -/
def Event.isPersistenceCall : Event → Bool
  | Event.updateInfoAndResultBasedOnCID _ _ _ => true
  | Event.updateHuskyCIResultsBasedOnRID _ _ _ => true
  | Event.logError _ _ _ _ _ => false

/-- The calls `T`, made after the calls `h`, end at the first persistence call that returns an
error: nothing follows such a call. -/
def endsAtFailure (env : Env) (h T : List Event) : Prop :=
  ∀ t e rest, T = t ++ e :: rest → e.isPersistenceCall = true →
    env.persistFails (h ++ t) e = true → rest = []

/-! ## Reading a decimal text -/

/-- The value of a decimal digit character. -/
def digitValue (c : Char) : Option Nat :=
  if 48 ≤ c.toNat ∧ c.toNat ≤ 57 then some (c.toNat - 48) else none

/-- Read a run of decimal digits, most significant first, continuing from `acc`. -/
def parseDigits : List Char → Nat → Option Nat
  | [], acc => some acc
  | c :: cs, acc =>
    match digitValue c with
    | none => none
    | some d => parseDigits cs (10 * acc + d)

/-- Read a character list as a decimal integer: an optional `-`, then at least one digit and
nothing else. -/
def parseDecimalChars : List Char → Option Int
  | [] => none
  | '-' :: ds =>
    if ds = [] then none else (parseDigits ds 0).map (fun (n : Nat) => -(n : Int))
  | ds => (parseDigits ds 0).map (fun (n : Nat) => (n : Int))

/-- Read a text as a decimal integer. -/
def parseDecimal (s : String) : Option Int := parseDecimalChars s.toList

/-! ## Worked inputs -/

/-- An environment for worked inputs: `json.Unmarshal` yields `decoded` on the text `raw` (and
rejects any other text), and exactly the persistence calls listed in `failing` return an
error. -/
def exampleEnv (raw : String) (decoded : Except String BanditOutput) (failing : List Event) :
    Env :=
  { jsonUnmarshal := fun s => if s = raw then decoded else Except.error "unexpected input"
    persistFails := fun _ e => decide (e ∈ failing) }

/-- A finding of Bandit test B602 (severity HIGH, confidence HIGH) whose code line mentions
`ERROR_CLONING`. -/
def shellIssue : Result :=
  { Code := "subprocess.call(ERROR_CLONING, shell=True)"
    Filename := "./run.py"
    IssueConfidence := "HIGH"
    IssueSeverity := "HIGH"
    IssueText := "subprocess call with shell=True identified, security issue."
    LineNumber := 3
    LineRange := [3]
    TestID := "B602"
    TestName := "subprocess_popen_with_shell_equals_true" }

/-- The JSON text of a Bandit report with the single finding `shellIssue` and no `errors`
key. -/
def shellReportRaw : String :=
  "\x7b\"results\":[\x7b\"code\":\"subprocess.call(ERROR_CLONING, shell=True)\","
  ++ "\"filename\":\"./run.py\",\"issue_confidence\":\"HIGH\",\"issue_severity\":\"HIGH\","
  ++ "\"issue_text\":\"subprocess call with shell=True identified, security issue.\","
  ++ "\"line_number\":3,\"line_range\":[3],\"test_id\":\"B602\","
  ++ "\"test_name\":\"subprocess_popen_with_shell_equals_true\"\x7d]\x7d"

/-- What `json.Unmarshal` stores for `shellReportRaw`. -/
def shellReport : BanditOutput := { Errors := none, Results := [shellIssue] }

/-- A finding of Bandit test B101 (severity LOW, confidence HIGH). -/
def assertIssue : Result :=
  { Code := "assert ok"
    Filename := "./app.py"
    IssueConfidence := "HIGH"
    IssueSeverity := "LOW"
    IssueText := "Use of assert detected."
    LineNumber := 7
    LineRange := [7]
    TestID := "B101"
    TestName := "assert_used" }

/-- A finding of Bandit test B307 (severity MEDIUM, confidence HIGH). -/
def evalIssue : Result :=
  { Code := "eval(data)"
    Filename := "./app.py"
    IssueConfidence := "HIGH"
    IssueSeverity := "MEDIUM"
    IssueText := "Use of possibly insecure function."
    LineNumber := 12
    LineRange := [12]
    TestID := "B307"
    TestName := "blacklist" }

/-- The JSON text of a Bandit report with `"errors":[]` and the single finding
`assertIssue`. -/
def assertReportRaw : String :=
  "\x7b\"errors\":[],\"results\":[\x7b\"code\":\"assert ok\",\"filename\":\"./app.py\","
  ++ "\"issue_confidence\":\"HIGH\",\"issue_severity\":\"LOW\","
  ++ "\"issue_text\":\"Use of assert detected.\",\"line_number\":7,\"line_range\":[7],"
  ++ "\"test_id\":\"B101\",\"test_name\":\"assert_used\"\x7d]\x7d"

/-- What `json.Unmarshal` stores for `assertReportRaw`: the raw message holds the text `[]`. -/
def assertReport : BanditOutput := { Errors := some "[]", Results := [assertIssue] }

/-- The JSON text of a Bandit report without `errors` key and with the findings `assertIssue`
and `evalIssue`, in that order. -/
def mixedReportRaw : String :=
  "\x7b\"results\":[\x7b\"code\":\"assert ok\",\"filename\":\"./app.py\","
  ++ "\"issue_confidence\":\"HIGH\",\"issue_severity\":\"LOW\","
  ++ "\"issue_text\":\"Use of assert detected.\",\"line_number\":7,\"line_range\":[7],"
  ++ "\"test_id\":\"B101\",\"test_name\":\"assert_used\"\x7d,"
  ++ "\x7b\"code\":\"eval(data)\",\"filename\":\"./app.py\","
  ++ "\"issue_confidence\":\"HIGH\",\"issue_severity\":\"MEDIUM\","
  ++ "\"issue_text\":\"Use of possibly insecure function.\",\"line_number\":12,"
  ++ "\"line_range\":[12],\"test_id\":\"B307\",\"test_name\":\"blacklist\"\x7d]\x7d"

/-- What `json.Unmarshal` stores for `mixedReportRaw`. -/
def mixedReport : BanditOutput := { Errors := none, Results := [assertIssue, evalIssue] }

/-- The JSON text of a Bandit report with no finding, whose `errors` entry names a file called
`ERROR_CLONING.py`. -/
def skippedFileReportRaw : String :=
  "\x7b\"errors\":[\x7b\"filename\":\"./ERROR_CLONING.py\","
  ++ "\"reason\":\"syntax error while parsing AST from file\"\x7d],\"results\":[]\x7d"

/-- What `json.Unmarshal` stores for `skippedFileReportRaw`. -/
def skippedFileReport : BanditOutput :=
  { Errors := some ("[\x7b\"filename\":\"./ERROR_CLONING.py\","
      ++ "\"reason\":\"syntax error while parsing AST from file\"\x7d]")
    Results := [] }

/-- The JSON text of a Bandit report with no finding and `"errors":[]`. -/
def emptyReportRaw : String := "\x7b\"errors\":[],\"results\":[]\x7d"

/-- What `json.Unmarshal` stores for `emptyReportRaw`. -/
def emptyReport : BanditOutput := { Errors := some "[]", Results := [] }

/-- A finding of Bandit test B301 (severity MEDIUM, confidence HIGH). -/
def pickleIssue : Result :=
  { Code := "pickle.loads(blob)"
    Filename := "./store.py"
    IssueConfidence := "HIGH"
    IssueSeverity := "MEDIUM"
    IssueText := "Pickle library appears to be in use, possible security issue."
    LineNumber := 0
    LineRange := []
    TestID := "B301"
    TestName := "blacklist" }

/-- A finding whose severity is spelled in lower case, which is none of the three known
values. -/
def lowerCaseIssue : Result :=
  { Code := "exec(cmd)"
    Filename := "./tool.py"
    IssueConfidence := "HIGH"
    IssueSeverity := "high"
    IssueText := "Use of exec detected."
    LineNumber := -1
    LineRange := [1]
    TestID := "B102"
    TestName := "exec_used" }

/-- A parsed output with five findings of mixed severity. -/
def variedReport : BanditOutput :=
  { Errors := none
    Results := [shellIssue, evalIssue, lowerCaseIssue, assertIssue, pickleIssue] }

/-- The output of a container whose clone step failed. -/
def cloneFailureRaw : String := "ERROR_CLONING: repo not found"

/-- The error `json.Unmarshal` reports on a text that does not start a JSON value. -/
def notJSON (c : Char) : Except String BanditOutput :=
  Except.error ("invalid character " ++ c.quote ++ " looking for beginning of value")

/-! ## Lemmas -/

set_option maxRecDepth 100000

@[simp] theorem verdictWrites_append (a b : List Event) :
    verdictWrites (a ++ b) = verdictWrites a ++ verdictWrites b := by
  induction a with
  | nil => rfl
  | cons e rest ih => cases e <;> simp [verdictWrites, ih]

@[simp] theorem deliveries_append (a b : List Event) :
    deliveries (a ++ b) = deliveries a ++ deliveries b := by
  induction a with
  | nil => rfl
  | cons e rest ih => cases e <;> simp [deliveries, ih]

@[simp] theorem logCodes_append (a b : List Event) :
    logCodes (a ++ b) = logCodes a ++ logCodes b := by
  induction a with
  | nil => rfl
  | cons e rest ih => cases e <;> simp [logCodes, ih]

theorem classifyLoop_failed (rs : List Result) (acc : String × String)
    (h : ∃ issue ∈ rs, (issue.IssueSeverity = "HIGH" ∨ issue.IssueSeverity = "MEDIUM")
      ∧ issue.IssueConfidence = "HIGH") :
    classifyLoop rs acc = ("Issues found.", "failed") := by
  induction rs with
  | nil => simp at h
  | cons issue rest ih =>
    unfold classifyLoop
    split
    · rfl
    · next hn =>
      obtain ⟨i, hmem, hi⟩ := h
      rcases List.mem_cons.mp hmem with heq | hrest
      · exact absurd (heq ▸ hi) hn
      · exact ih ⟨i, hrest, hi⟩

theorem classifyLoop_passed (rs : List Result) (acc : String × String)
    (h : ∀ issue ∈ rs, ¬((issue.IssueSeverity = "HIGH" ∨ issue.IssueSeverity = "MEDIUM")
      ∧ issue.IssueConfidence = "HIGH")) :
    classifyLoop rs acc = acc := by
  induction rs with
  | nil => rfl
  | cons issue rest ih =>
    unfold classifyLoop
    rw [if_neg (h issue (List.mem_cons_self _ _))]
    exact ih (fun i hi => h i (List.mem_cons_of_mem _ hi))

theorem verdictWrites_classifyAndDeliver (env : Env) (CID RID : String) (b : BanditOutput)
    (t : List Event) :
    verdictWrites (classifyAndDeliver env CID RID b t) =
      verdictWrites t ++ [((classify b.Results).1, (classify b.Results).2, CID)] := by
  unfold classifyAndDeliver
  simp only [Env.call]
  split <;> simp [verdictWrites]

/-- The verdict writes of an invocation that reaches the classification stage. -/
theorem verdictWrites_of_reached (env : Env) (CID cOutput RID : String) (b : BanditOutput)
    (hparse : env.jsonUnmarshal cOutput = Except.ok b) (hne : b.Results ≠ [])
    (hpre : ∀ t msg, env.persistFails t
      (Event.updateInfoAndResultBasedOnCID msg "error" CID) = false) :
    verdictWrites (BanditStartAnalysis env CID cOutput RID) =
      (if strings.Contains cOutput "ERROR_CLONING" = true
        then [("Error clonning repository", "error", CID)] else [])
      ++ (if b.Errors ≠ none then [("Internal error running Bandit.", "error", CID)] else [])
      ++ [((classify b.Results).1, (classify b.Results).2, CID)] := by
  have hlen : ¬ b.Results.length = 0 := by
    intro h
    exact hne (List.length_eq_zero.mp h)
  unfold BanditStartAnalysis parseAndAnalyse
  simp only [Env.call, hpre, hparse, hlen, if_false, Bool.false_eq_true]
  by_cases hs : strings.Contains cOutput "ERROR_CLONING" = true <;>
    by_cases he : b.Errors = none <;>
    simp [hs, he, verdictWrites_classifyAndDeliver, verdictWrites]

/-- The calls of an invocation on a report without the clone marker and without findings. -/
theorem trace_of_no_findings (env : Env) (CID cOutput RID : String) (b : BanditOutput)
    (hclone : strings.Contains cOutput "ERROR_CLONING" = false)
    (hparse : env.jsonUnmarshal cOutput = Except.ok b) (hempty : b.Results = []) :
    BanditStartAnalysis env CID cOutput RID =
      [Event.updateInfoAndResultBasedOnCID "No issues found." "passed" CID] := by
  simp [BanditStartAnalysis, parseAndAnalyse, Env.call, hclone, hparse, hempty]

/-- An invocation on a report with findings either makes the classification write its last
verdict write, or ends at an error-verdict write that returned an error. -/
theorem reached_or_stopped (env : Env) (CID cOutput RID : String) (b : BanditOutput)
    (hparse : env.jsonUnmarshal cOutput = Except.ok b) (hne : b.Results ≠ []) :
    (verdictWrites (BanditStartAnalysis env CID cOutput RID)).getLast? =
        some ((classify b.Results).1, (classify b.Results).2, CID)
    ∨ ∃ t msg, BanditStartAnalysis env CID cOutput RID =
          t ++ [Event.updateInfoAndResultBasedOnCID msg "error" CID]
        ∧ env.persistFails t (Event.updateInfoAndResultBasedOnCID msg "error" CID) = true := by
  have hlen : ¬ b.Results.length = 0 := fun h => hne (List.length_eq_zero.mp h)
  unfold BanditStartAnalysis parseAndAnalyse
  simp only [Env.call, hparse, hlen, if_false]
  by_cases hs : strings.Contains cOutput "ERROR_CLONING" = true
  · by_cases hf : env.persistFails []
        (Event.updateInfoAndResultBasedOnCID "Error clonning repository" "error" CID) = true
    · right
      exact ⟨[], "Error clonning repository", by simp [hs, hf], hf⟩
    · by_cases he : b.Errors = none
      · left
        simp [hs, hf, he, verdictWrites_classifyAndDeliver, verdictWrites]
      · by_cases hg : env.persistFails
            [Event.updateInfoAndResultBasedOnCID "Error clonning repository" "error" CID]
            (Event.updateInfoAndResultBasedOnCID "Internal error running Bandit." "error" CID)
            = true
        · right
          exact ⟨_, "Internal error running Bandit.", by simp [hs, hf, he, hg], hg⟩
        · left
          simp [hs, hf, he, hg, verdictWrites_classifyAndDeliver, verdictWrites]
  · by_cases he : b.Errors = none
    · left
      simp [hs, he, verdictWrites_classifyAndDeliver, verdictWrites]
    · by_cases hg : env.persistFails []
          (Event.updateInfoAndResultBasedOnCID "Internal error running Bandit." "error" CID)
          = true
      · right
        exact ⟨[], "Internal error running Bandit.", by simp [hs, he, hg], hg⟩
      · left
        simp [hs, he, hg, verdictWrites_classifyAndDeliver, verdictWrites]

/-- Go `strings.Contains` holds exactly when the second list is a contiguous part of the
first. -/
theorem containsChars_iff_infix (s substr : List Char) :
    containsChars s substr = true ↔ substr <:+: s := by
  induction s with
  | nil => simp [containsChars]
  | cons c cs ih =>
    simp only [containsChars, Bool.or_eq_true, ih, List.infix_cons_iff,
      List.isPrefixOf_iff_prefix]

theorem prepareLoop_eq (rs : List Result) (acc : HuskyCIBanditOutput) :
    prepareLoop rs acc =
      { LowVulnsBandit := acc.LowVulnsBandit ++
          (rs.filter (fun i => decide (i.IssueSeverity = "LOW"))).map banditVulnOf
        MediumVulnsBandit := acc.MediumVulnsBandit ++
          (rs.filter (fun i => decide (i.IssueSeverity = "MEDIUM"))).map banditVulnOf
        HighVulnsBandit := acc.HighVulnsBandit ++
          (rs.filter (fun i => decide (i.IssueSeverity = "HIGH"))).map banditVulnOf } := by
  induction rs generalizing acc with
  | nil => simp [prepareLoop]
  | cons issue rest ih =>
    rw [prepareLoop, ih]
    by_cases hl : issue.IssueSeverity = "LOW"
    · simp [prepareStep, banditVulnOf, hl, List.filter_cons]
    · by_cases hm : issue.IssueSeverity = "MEDIUM"
      · simp [prepareStep, banditVulnOf, hm, List.filter_cons]
      · by_cases hh : issue.IssueSeverity = "HIGH"
        · simp [prepareStep, banditVulnOf, hh, List.filter_cons]
        · simp [prepareStep, banditVulnOf, hl, hm, hh, List.filter_cons]

theorem digitValue_digitChar {d : Nat} (h : d < 10) : digitValue (digitChar d) = some d := by
  interval_cases d <;> decide

theorem digitChar_ne_minus {d : Nat} (h : d < 10) : digitChar d ≠ '-' := by
  interval_cases d <;> decide

theorem parseDigits_append (xs : List Char) (c : Char) (acc : Nat) :
    parseDigits (xs ++ [c]) acc =
      (parseDigits xs acc).bind (fun m => (digitValue c).map (fun d => 10 * m + d)) := by
  induction xs generalizing acc with
  | nil =>
    simp only [List.nil_append, parseDigits, Option.some_bind]
    cases digitValue c <;> simp [parseDigits]
  | cons x xs ih =>
    simp only [List.cons_append, parseDigits]
    cases digitValue x with
    | none => simp
    | some d => simpa using ih (10 * acc + d)

theorem parseDigits_decimalDigits (fuel n : Nat) (h : n < fuel) :
    parseDigits (decimalDigits fuel n) 0 = some n := by
  induction fuel generalizing n with
  | zero => omega
  | succ fuel ih =>
    unfold decimalDigits
    split
    · next hlt => simp [parseDigits, digitValue_digitChar hlt]
    · next hge =>
      rw [parseDigits_append, ih (n / 10) (by omega),
        digitValue_digitChar (Nat.mod_lt n (by decide))]
      simp only [Option.some_bind, Option.map_some']
      congr 1
      omega

theorem decimalDigits_head (fuel n : Nat) :
    ∃ d rest, d < 10 ∧ decimalDigits (fuel + 1) n = digitChar d :: rest := by
  induction fuel generalizing n with
  | zero =>
    unfold decimalDigits
    split
    · next hlt => exact ⟨n, [], hlt, rfl⟩
    · exact ⟨n % 10, [], Nat.mod_lt n (by decide), by simp [decimalDigits]⟩
  | succ fuel ih =>
    unfold decimalDigits
    split
    · next hlt => exact ⟨n, [], hlt, rfl⟩
    · obtain ⟨d, rest, hd, hrest⟩ := ih (n / 10)
      exact ⟨d, rest ++ [digitChar (n % 10)], hd, by rw [hrest]; rfl⟩

theorem parseDecimal_Itoa (i : Int) : parseDecimal (strconv.Itoa i) = some i := by
  cases i with
  | ofNat n =>
    obtain ⟨d, rest, hd, hrest⟩ := decimalDigits_head n n
    have hp := parseDigits_decimalDigits (n + 1) n (by omega)
    have hne := digitChar_ne_minus hd
    show parseDecimalChars (decimalDigits (n + 1) n) = some (Int.ofNat n)
    rw [hrest] at hp ⊢
    unfold parseDecimalChars
    split
    · next heq => simp at heq
    · next ds heq =>
      simp only [List.cons.injEq] at heq
      exact absurd heq.1 hne
    · simp [hp]
  | negSucc n =>
    obtain ⟨d, rest, hd, hrest⟩ := decimalDigits_head (n + 1) (n + 1)
    have hp := parseDigits_decimalDigits (n + 2) (n + 1) (by omega)
    have hrest2 : decimalDigits (n + 2) (n + 1) = digitChar d :: rest := hrest
    show parseDecimalChars ('-' :: decimalDigits (n + 2) (n + 1)) = some (Int.negSucc n)
    rw [hrest2] at hp ⊢
    simp [parseDecimalChars, hp, Int.negSucc_eq]

theorem prepare_buckets (b : BanditOutput) :
    (prepareHuskyCIBanditOutput b).LowVulnsBandit =
        (b.Results.filter (fun i => decide (i.IssueSeverity = "LOW"))).map banditVulnOf
    ∧ (prepareHuskyCIBanditOutput b).MediumVulnsBandit =
        (b.Results.filter (fun i => decide (i.IssueSeverity = "MEDIUM"))).map banditVulnOf
    ∧ (prepareHuskyCIBanditOutput b).HighVulnsBandit =
        (b.Results.filter (fun i => decide (i.IssueSeverity = "HIGH"))).map banditVulnOf := by
  simp [prepareHuskyCIBanditOutput, prepareLoop_eq]

theorem mem_bucket_severity {rs : List Result} {s : String} {v : HuskyCIVulnerability}
    (h : v ∈ (rs.filter (fun i => decide (i.IssueSeverity = s))).map banditVulnOf) :
    v.Severity = s ∧ ∃ issue ∈ rs, issue.IssueSeverity = s ∧ v = banditVulnOf issue := by
  simp only [List.mem_map, List.mem_filter, decide_eq_true_eq] at h
  obtain ⟨issue, ⟨hmem, hs⟩, rfl⟩ := h
  exact ⟨hs, issue, hmem, hs, rfl⟩

theorem banditVulnOf_mem_bucket {rs : List Result} {s : String} {issue : Result}
    (hmem : issue ∈ rs) (hs : issue.IssueSeverity = s) :
    banditVulnOf issue ∈ (rs.filter (fun i => decide (i.IssueSeverity = s))).map banditVulnOf := by
  simp only [List.mem_map, List.mem_filter, decide_eq_true_eq]
  exact ⟨issue, ⟨hmem, hs⟩, rfl⟩

theorem banditVulnOf_not_mem_bucket {rs : List Result} {s : String} {issue : Result}
    (hs : issue.IssueSeverity ≠ s) :
    banditVulnOf issue ∉ (rs.filter (fun i => decide (i.IssueSeverity = s))).map banditVulnOf := by
  intro h
  exact hs (mem_bucket_severity h).1

theorem severity_partition (rs : List Result) :
    (rs.filter (fun i => decide (i.IssueSeverity = "LOW"))).length
      + (rs.filter (fun i => decide (i.IssueSeverity = "MEDIUM"))).length
      + (rs.filter (fun i => decide (i.IssueSeverity = "HIGH"))).length
      + rs.countP (fun i => decide (i.IssueSeverity ≠ "LOW" ∧ i.IssueSeverity ≠ "MEDIUM"
          ∧ i.IssueSeverity ≠ "HIGH"))
    = rs.length := by
  induction rs with
  | nil => simp
  | cons issue rest ih =>
    by_cases hl : issue.IssueSeverity = "LOW"
    · simp [List.filter_cons, List.countP_cons, hl] at ih ⊢; omega
    · by_cases hm : issue.IssueSeverity = "MEDIUM"
      · simp [List.filter_cons, List.countP_cons, hl, hm] at ih ⊢; omega
      · by_cases hh : issue.IssueSeverity = "HIGH"
        · simp [List.filter_cons, List.countP_cons, hl, hm, hh] at ih ⊢; omega
        · simp [List.filter_cons, List.countP_cons, hl, hm, hh] at ih ⊢; omega

theorem prepareStep_of_other (acc : HuskyCIBanditOutput) (issue : Result)
    (hl : issue.IssueSeverity ≠ "LOW") (hm : issue.IssueSeverity ≠ "MEDIUM")
    (hh : issue.IssueSeverity ≠ "HIGH") : prepareStep acc issue = acc := by
  simp [prepareStep, banditVulnOf, hl, hm, hh]

theorem prepareStep_total_le (acc : HuskyCIBanditOutput) (issue : Result) :
    (prepareStep acc issue).LowVulnsBandit.length
      + (prepareStep acc issue).MediumVulnsBandit.length
      + (prepareStep acc issue).HighVulnsBandit.length
    ≤ acc.LowVulnsBandit.length + acc.MediumVulnsBandit.length
      + acc.HighVulnsBandit.length + 1 := by
  unfold prepareStep
  simp only
  split
  · simp only [List.length_append, List.length_singleton]; omega
  · split
    · simp only [List.length_append, List.length_singleton]; omega
    · split
      · simp only [List.length_append, List.length_singleton]; omega
      · omega

theorem prepareLoop_append (xs ys : List Result) (acc : HuskyCIBanditOutput) :
    prepareLoop (xs ++ ys) acc = prepareLoop ys (prepareLoop xs acc) := by
  induction xs generalizing acc with
  | nil => rfl
  | cons x rest ih => simp [prepareLoop, ih]

theorem classify_cases (rs : List Result) :
    classify rs = ("Issues found.", "failed") ∨ classify rs = ("No issues found.", "passed") := by
  by_cases h : ∃ issue ∈ rs, (issue.IssueSeverity = "HIGH" ∨ issue.IssueSeverity = "MEDIUM")
      ∧ issue.IssueConfidence = "HIGH"
  · exact Or.inl (classifyLoop_failed _ _ h)
  · right
    apply classifyLoop_passed
    intro issue hmem hq
    exact h ⟨issue, hmem, hq⟩

theorem classify_failed_iff (rs : List Result) :
    (classify rs).2 = "failed" ↔
      ∃ issue ∈ rs, (issue.IssueSeverity = "HIGH" ∨ issue.IssueSeverity = "MEDIUM")
        ∧ issue.IssueConfidence = "HIGH" := by
  constructor
  · intro hf
    by_contra hno
    have hp : classify rs = ("No issues found.", "passed") := by
      apply classifyLoop_passed
      intro issue hmem hq
      exact hno ⟨issue, hmem, hq⟩
    rw [hp] at hf
    exact absurd hf (by decide)
  · intro h
    have hc : classify rs = ("Issues found.", "failed") := classifyLoop_failed _ _ h
    rw [hc]

/-- The calls of an invocation on a report with findings when no verdict write fails. -/
theorem trace_of_writes_ok (env : Env) (CID cOutput RID : String) (b : BanditOutput)
    (hparse : env.jsonUnmarshal cOutput = Except.ok b) (hne : b.Results ≠ [])
    (hw : ∀ t msg status, env.persistFails t
      (Event.updateInfoAndResultBasedOnCID msg status CID) = false) :
    BanditStartAnalysis env CID cOutput RID =
      (if strings.Contains cOutput "ERROR_CLONING" = true
        then [Event.updateInfoAndResultBasedOnCID "Error clonning repository" "error" CID]
        else [])
      ++ (if b.Errors ≠ none
        then [Event.updateInfoAndResultBasedOnCID "Internal error running Bandit." "error" CID]
        else [])
      ++ [Event.updateInfoAndResultBasedOnCID (classify b.Results).1 (classify b.Results).2 CID,
          Event.updateHuskyCIResultsBasedOnRID RID "bandit" b] := by
  have hlen : ¬ b.Results.length = 0 := fun h => hne (List.length_eq_zero.mp h)
  unfold BanditStartAnalysis parseAndAnalyse classifyAndDeliver
  simp only [Env.call, hw, hparse, hlen, if_false, Bool.false_eq_true]
  by_cases hs : strings.Contains cOutput "ERROR_CLONING" = true <;>
    by_cases he : b.Errors = none <;>
    simp [hs, he]

/-- The calls of an invocation on a report with findings, without the clone marker and without
errors payload. -/
theorem trace_of_plain_report (env : Env) (CID cOutput RID : String) (b : BanditOutput)
    (hclone : strings.Contains cOutput "ERROR_CLONING" = false)
    (hparse : env.jsonUnmarshal cOutput = Except.ok b) (hne : b.Results ≠ [])
    (herr : b.Errors = none) :
    BanditStartAnalysis env CID cOutput RID = classifyAndDeliver env CID RID b [] := by
  have hlen : ¬ b.Results.length = 0 := fun h => hne (List.length_eq_zero.mp h)
  simp [BanditStartAnalysis, parseAndAnalyse, hclone, hparse, hlen, herr]

/-- The calls of an invocation on a report with findings and an errors payload, without the
clone marker. -/
theorem trace_of_errors_report (env : Env) (CID cOutput RID : String) (b : BanditOutput)
    (hclone : strings.Contains cOutput "ERROR_CLONING" = false)
    (hparse : env.jsonUnmarshal cOutput = Except.ok b) (hne : b.Results ≠ [])
    (herr : b.Errors ≠ none) :
    BanditStartAnalysis env CID cOutput RID =
      if env.persistFails []
          (Event.updateInfoAndResultBasedOnCID "Internal error running Bandit." "error" CID)
          = true
      then [Event.updateInfoAndResultBasedOnCID "Internal error running Bandit." "error" CID]
      else classifyAndDeliver env CID RID b
        [Event.updateInfoAndResultBasedOnCID "Internal error running Bandit." "error" CID] := by
  have hlen : ¬ b.Results.length = 0 := fun h => hne (List.length_eq_zero.mp h)
  simp [BanditStartAnalysis, parseAndAnalyse, Env.call, hclone, hparse, hlen, herr]

theorem endsAtFailure_singleton (env : Env) (h : List Event) (e : Event) :
    endsAtFailure env h [e] := by
  intro t e' rest heq _ _
  rcases t with _ | ⟨x, t⟩
  · simp at heq
    exact heq.2
  · simp at heq

theorem endsAtFailure_cons (env : Env) (h : List Event) (e : Event) (T : List Event)
    (hok : e.isPersistenceCall = true → env.persistFails h e = false)
    (hT : endsAtFailure env (h ++ [e]) T) : endsAtFailure env h (e :: T) := by
  intro t e' rest heq hp hf
  rcases t with _ | ⟨x, t⟩
  · simp only [List.nil_append, List.cons.injEq] at heq
    obtain ⟨rfl, _⟩ := heq
    rw [List.append_nil, hok hp] at hf
    exact absurd hf (by decide)
  · simp only [List.cons_append, List.cons.injEq] at heq
    obtain ⟨rfl, hrest⟩ := heq
    apply hT t e' rest hrest hp
    rw [List.append_assoc]
    exact hf

theorem classify_status_ne_error (rs : List Result) : (classify rs).2 ≠ "error" := by
  rcases classify_cases rs with h | h <;> rw [h] <;> decide

theorem classify_message_ne (rs : List Result) :
    (classify rs).1 ≠ "Error clonning repository"
    ∧ (classify rs).1 ≠ "Internal error running Bandit." := by
  rcases classify_cases rs with h | h <;> rw [h] <;> decide

/-- Every invocation ends at the first persistence call that returns an error. -/
theorem endsAtFailure_BanditStartAnalysis (env : Env) (CID cOutput RID : String) :
    endsAtFailure env [] (BanditStartAnalysis env CID cOutput RID) := by
  unfold BanditStartAnalysis parseAndAnalyse classifyAndDeliver
  simp only [Env.call]
  repeat' split
  all_goals simp only [List.nil_append, List.singleton_append, List.cons_append] at *
  all_goals
    repeat
      first
        | exact endsAtFailure_singleton _ _ _
        | refine endsAtFailure_cons _ _ _ _ (fun _ => by simp_all) ?_

/-- No call of an invocation is made twice. -/
theorem nodup_BanditStartAnalysis (env : Env) (CID cOutput RID : String) :
    (BanditStartAnalysis env CID cOutput RID).Nodup := by
  unfold BanditStartAnalysis parseAndAnalyse classifyAndDeliver
  simp only [Env.call]
  repeat' split
  all_goals
    simp [classify_status_ne_error, (classify_message_ne _).1, (classify_message_ne _).2,
      Ne.symm (classify_status_ne_error _), Ne.symm (classify_message_ne _).1,
      Ne.symm (classify_message_ne _).2]

/-- The delivery of the parsed output, when it is made, is the last call of the invocation. -/
theorem deliveries_dropLast_BanditStartAnalysis (env : Env) (CID cOutput RID : String) :
    deliveries (BanditStartAnalysis env CID cOutput RID).dropLast = [] := by
  unfold BanditStartAnalysis parseAndAnalyse classifyAndDeliver
  simp only [Env.call]
  repeat' split
  all_goals simp [deliveries]

/-- The delivery of the parsed output is made at most once in an invocation. -/
theorem deliveries_length_BanditStartAnalysis (env : Env) (CID cOutput RID : String) :
    (deliveries (BanditStartAnalysis env CID cOutput RID)).length ≤ 1 := by
  unfold BanditStartAnalysis parseAndAnalyse classifyAndDeliver
  simp only [Env.call]
  repeat' split
  all_goals simp [deliveries]

/-- The calls of an invocation depend on the collaborators only through the decoding of the raw
output and the outcomes of the verdict writes. -/
theorem trace_congr (env env2 : Env) (CID cOutput RID : String)
    (hjson : env.jsonUnmarshal cOutput = env2.jsonUnmarshal cOutput)
    (hwrites : ∀ t msg status, env.persistFails t
        (Event.updateInfoAndResultBasedOnCID msg status CID) =
      env2.persistFails t (Event.updateInfoAndResultBasedOnCID msg status CID)) :
    BanditStartAnalysis env CID cOutput RID = BanditStartAnalysis env2 CID cOutput RID := by
  unfold BanditStartAnalysis parseAndAnalyse classifyAndDeliver
  simp only [Env.call, hjson, hwrites]

/-! ## The claims -/

/-- C1 (the code at the failing input): the text `shellReportRaw` contains "ERROR_CLONING" and
is a well-formed Bandit report with one finding.  With every persistence call succeeding,
BanditStartAnalysis writes the verdict ("Error clonning repository", "error"), then goes on to
write a second verdict ("Issues found.", "failed") and to deliver the parsed output through
updateHuskyCIResultsBasedOnRID. -/
theorem BanditStartAnalysis_sentinel_inside_report :
    strings.Contains shellReportRaw "ERROR_CLONING" = true
    ∧ BanditStartAnalysis (exampleEnv shellReportRaw (Except.ok shellReport) [])
        "cid" shellReportRaw "rid" =
      [Event.updateInfoAndResultBasedOnCID "Error clonning repository" "error" "cid",
       Event.updateInfoAndResultBasedOnCID "Issues found." "failed" "cid",
       Event.updateHuskyCIResultsBasedOnRID "rid" "bandit" shellReport] := by
  decide

/-- C2: when the parsed output has a finding with severity "HIGH" or "MEDIUM" and confidence
"HIGH", the classification stage writes the verdict ("Issues found.", "failed") keyed by the
CID, whatever calls came before it; if the error-verdict writes that precede the stage succeed,
this is the last verdict write of the invocation; in any case it is the last verdict write
unless the invocation ended at an error-verdict write that returned an error; and classifying
any permutation of the findings gives the same verdict. -/
theorem BanditStartAnalysis_failed_verdict (env : Env) (CID cOutput RID : String)
    (banditResult : BanditOutput)
    (hparse : env.jsonUnmarshal cOutput = Except.ok banditResult)
    (hissue : ∃ issue ∈ banditResult.Results,
      (issue.IssueSeverity = "HIGH" ∨ issue.IssueSeverity = "MEDIUM")
        ∧ issue.IssueConfidence = "HIGH") :
    (∀ t, verdictWrites (classifyAndDeliver env CID RID banditResult t) =
        verdictWrites t ++ [("Issues found.", "failed", CID)])
    ∧ ((∀ t msg, env.persistFails t
          (Event.updateInfoAndResultBasedOnCID msg "error" CID) = false) →
        (verdictWrites (BanditStartAnalysis env CID cOutput RID)).getLast? =
          some ("Issues found.", "failed", CID))
    ∧ ((verdictWrites (BanditStartAnalysis env CID cOutput RID)).getLast? =
          some ("Issues found.", "failed", CID)
        ∨ ∃ t msg, BanditStartAnalysis env CID cOutput RID =
              t ++ [Event.updateInfoAndResultBasedOnCID msg "error" CID]
            ∧ env.persistFails t (Event.updateInfoAndResultBasedOnCID msg "error" CID) = true)
    ∧ (∀ results, results.Perm banditResult.Results →
        classify results = ("Issues found.", "failed")) := by
  have hc : classify banditResult.Results = ("Issues found.", "failed") :=
    classifyLoop_failed _ _ hissue
  have hne : banditResult.Results ≠ [] := by
    obtain ⟨issue, hmem, _⟩ := hissue
    exact List.ne_nil_of_mem hmem
  refine ⟨?_, ?_, ?_, ?_⟩
  · intro t
    rw [verdictWrites_classifyAndDeliver, hc]
  · intro hpre
    rw [verdictWrites_of_reached env CID cOutput RID banditResult hparse hne hpre, hc]
    simp
  · have h := reached_or_stopped env CID cOutput RID banditResult hparse hne
    rwa [hc] at h
  · intro results hperm
    obtain ⟨issue, hmem, hi⟩ := hissue
    exact classifyLoop_failed _ _ ⟨issue, hperm.mem_iff.mpr hmem, hi⟩

/-- C2 at a concrete input: the report `mixedReportRaw`, whose second finding has severity
MEDIUM and confidence HIGH; the last verdict write is the failed verdict, and the two findings
in the other order classify the same way. -/
theorem BanditStartAnalysis_failed_verdict_witness :
    (verdictWrites (BanditStartAnalysis (exampleEnv mixedReportRaw (Except.ok mixedReport) [])
        "cid" mixedReportRaw "rid")).getLast? = some ("Issues found.", "failed", "cid")
    ∧ classify [evalIssue, assertIssue] = ("Issues found.", "failed") :=
  have h := BanditStartAnalysis_failed_verdict
    (exampleEnv mixedReportRaw (Except.ok mixedReport) [])
    "cid" mixedReportRaw "rid" mixedReport rfl ⟨evalIssue, by decide, by decide⟩
  ⟨h.2.1 (fun _ _ => by simp [exampleEnv]), h.2.2.2 _ (List.Perm.swap _ _ _)⟩

/-- C3: when the parsed output has findings but none with severity "HIGH" or "MEDIUM" together
with confidence "HIGH", the classification stage writes the verdict
("No issues found.", "passed") keyed by the CID, whatever calls came before it; if the
error-verdict writes that precede the stage succeed, this is the last verdict write of the
invocation; in any case it is the last verdict write unless the invocation ended at an
error-verdict write that returned an error.  Findings that are all of LOW severity, or of HIGH
severity with MEDIUM confidence, are such a case. -/
theorem BanditStartAnalysis_passed_verdict (env : Env) (CID cOutput RID : String)
    (banditResult : BanditOutput)
    (hparse : env.jsonUnmarshal cOutput = Except.ok banditResult)
    (hne : banditResult.Results ≠ [])
    (hnone : ∀ issue ∈ banditResult.Results,
      ¬((issue.IssueSeverity = "HIGH" ∨ issue.IssueSeverity = "MEDIUM")
        ∧ issue.IssueConfidence = "HIGH")) :
    (∀ t, verdictWrites (classifyAndDeliver env CID RID banditResult t) =
        verdictWrites t ++ [("No issues found.", "passed", CID)])
    ∧ ((∀ t msg, env.persistFails t
          (Event.updateInfoAndResultBasedOnCID msg "error" CID) = false) →
        (verdictWrites (BanditStartAnalysis env CID cOutput RID)).getLast? =
          some ("No issues found.", "passed", CID))
    ∧ ((verdictWrites (BanditStartAnalysis env CID cOutput RID)).getLast? =
          some ("No issues found.", "passed", CID)
        ∨ ∃ t msg, BanditStartAnalysis env CID cOutput RID =
              t ++ [Event.updateInfoAndResultBasedOnCID msg "error" CID]
            ∧ env.persistFails t (Event.updateInfoAndResultBasedOnCID msg "error" CID) = true)
    ∧ (∀ results : List Result,
        (∀ issue ∈ results, issue.IssueSeverity = "LOW"
          ∨ (issue.IssueSeverity = "HIGH" ∧ issue.IssueConfidence = "MEDIUM")) →
        classify results = ("No issues found.", "passed")) := by
  have hc : classify banditResult.Results = ("No issues found.", "passed") :=
    classifyLoop_passed _ _ hnone
  refine ⟨?_, ?_, ?_, ?_⟩
  · intro t
    rw [verdictWrites_classifyAndDeliver, hc]
  · intro hpre
    rw [verdictWrites_of_reached env CID cOutput RID banditResult hparse hne hpre, hc]
    simp
  · have h := reached_or_stopped env CID cOutput RID banditResult hparse hne
    rwa [hc] at h
  · intro results hall
    apply classifyLoop_passed
    intro issue hmem hq
    rcases hall issue hmem with hlow | ⟨_, hconf⟩
    · rw [hlow] at hq
      exact absurd hq.1 (by decide)
    · rw [hconf] at hq
      exact absurd hq.2 (by decide)

/-- C3 at a concrete input: the report `assertReportRaw`, whose only finding has severity
LOW; the last verdict write is the passed verdict. -/
theorem BanditStartAnalysis_passed_verdict_witness :
    (verdictWrites (BanditStartAnalysis (exampleEnv assertReportRaw (Except.ok assertReport) [])
        "cid" assertReportRaw "rid")).getLast? = some ("No issues found.", "passed", "cid") :=
  (BanditStartAnalysis_passed_verdict (exampleEnv assertReportRaw (Except.ok assertReport) [])
    "cid" assertReportRaw "rid" assertReport rfl (by decide) (by decide)).2.1
    (fun _ _ => by simp [exampleEnv])

/-- C4 (counterexample): `skippedFileReportRaw` is a well-formed report with no finding, and it
contains "ERROR_CLONING" (in a file name of its errors field).  BanditStartAnalysis writes two
verdicts for it, the first one an error verdict. -/
theorem BanditStartAnalysis_no_findings_counterexample :
    (exampleEnv skippedFileReportRaw (Except.ok skippedFileReport) []).jsonUnmarshal
        skippedFileReportRaw = Except.ok skippedFileReport
    ∧ skippedFileReport.Results = []
    ∧ verdictWrites (BanditStartAnalysis
        (exampleEnv skippedFileReportRaw (Except.ok skippedFileReport) [])
        "cid" skippedFileReportRaw "rid") =
      [("Error clonning repository", "error", "cid"), ("No issues found.", "passed", "cid")]
    ∧ verdictWrites (BanditStartAnalysis
        (exampleEnv skippedFileReportRaw (Except.ok skippedFileReport) [])
        "cid" skippedFileReportRaw "rid") ≠ [("No issues found.", "passed", "cid")] := by
  refine ⟨rfl, rfl, ?_, ?_⟩ <;> decide

/-- C4 (amended): for a well-formed raw output that does not contain "ERROR_CLONING" and whose
findings are empty, whatever the errors field holds and whether or not the write succeeds, the
only call of the invocation is the verdict write ("No issues found.", "passed") keyed by the
CID: one verdict, no error verdict, no delivery of the parsed output. -/
theorem BanditStartAnalysis_no_findings (env : Env) (CID cOutput RID : String)
    (banditResult : BanditOutput)
    (hclone : strings.Contains cOutput "ERROR_CLONING" = false)
    (hparse : env.jsonUnmarshal cOutput = Except.ok banditResult)
    (hempty : banditResult.Results = []) :
    BanditStartAnalysis env CID cOutput RID =
        [Event.updateInfoAndResultBasedOnCID "No issues found." "passed" CID]
    ∧ verdictWrites (BanditStartAnalysis env CID cOutput RID) =
        [("No issues found.", "passed", CID)]
    ∧ deliveries (BanditStartAnalysis env CID cOutput RID) = [] := by
  rw [trace_of_no_findings env CID cOutput RID banditResult hclone hparse hempty]
  exact ⟨rfl, rfl, rfl⟩

/-- C4 (amended) at a concrete input: the report `emptyReportRaw`, with the write failing. -/
theorem BanditStartAnalysis_no_findings_witness :
    BanditStartAnalysis (exampleEnv emptyReportRaw (Except.ok emptyReport)
        [Event.updateInfoAndResultBasedOnCID "No issues found." "passed" "cid"])
        "cid" emptyReportRaw "rid" =
        [Event.updateInfoAndResultBasedOnCID "No issues found." "passed" "cid"]
    ∧ verdictWrites (BanditStartAnalysis (exampleEnv emptyReportRaw (Except.ok emptyReport)
        [Event.updateInfoAndResultBasedOnCID "No issues found." "passed" "cid"])
        "cid" emptyReportRaw "rid") = [("No issues found.", "passed", "cid")]
    ∧ deliveries (BanditStartAnalysis (exampleEnv emptyReportRaw (Except.ok emptyReport)
        [Event.updateInfoAndResultBasedOnCID "No issues found." "passed" "cid"])
        "cid" emptyReportRaw "rid") = [] :=
  BanditStartAnalysis_no_findings _ "cid" emptyReportRaw "rid" emptyReport
    (by decide) rfl rfl

/-- C5 (counterexample): the text "ERROR_CLONING: repo not found" does not deserialize, yet
BanditStartAnalysis performs a verdict write for it (before the log entry). -/
theorem BanditStartAnalysis_malformed_counterexample :
    (exampleEnv cloneFailureRaw (notJSON 'E') []).jsonUnmarshal cloneFailureRaw = notJSON 'E'
    ∧ BanditStartAnalysis (exampleEnv cloneFailureRaw (notJSON 'E') [])
        "cid" cloneFailureRaw "rid" =
      [Event.updateInfoAndResultBasedOnCID "Error clonning repository" "error" "cid",
       Event.logError "BanditStartAnalysis" "BANDIT" 1006 cloneFailureRaw
        "invalid character 'E' looking for beginning of value"]
    ∧ verdictWrites (BanditStartAnalysis (exampleEnv cloneFailureRaw (notJSON 'E') [])
        "cid" cloneFailureRaw "rid") ≠ [] := by
  refine ⟨rfl, ?_, ?_⟩ <;> decide

/-- C5 (amended): for a raw output that does not contain "ERROR_CLONING" and fails to
deserialize, the only call of the invocation is one log entry with code 1006 (carrying the raw
output and the decoder error): no verdict write and no delivery of a parsed output. -/
theorem BanditStartAnalysis_malformed (env : Env) (CID cOutput RID err : String)
    (hclone : strings.Contains cOutput "ERROR_CLONING" = false)
    (hparse : env.jsonUnmarshal cOutput = Except.error err) :
    BanditStartAnalysis env CID cOutput RID =
        [Event.logError "BanditStartAnalysis" "BANDIT" 1006 cOutput err]
    ∧ verdictWrites (BanditStartAnalysis env CID cOutput RID) = []
    ∧ deliveries (BanditStartAnalysis env CID cOutput RID) = []
    ∧ logCodes (BanditStartAnalysis env CID cOutput RID) = [1006] := by
  have h : BanditStartAnalysis env CID cOutput RID =
      [Event.logError "BanditStartAnalysis" "BANDIT" 1006 cOutput err] := by
    simp [BanditStartAnalysis, parseAndAnalyse, hclone, hparse]
  rw [h]
  exact ⟨rfl, rfl, rfl, rfl⟩

/-- C5 (amended) at a concrete input: the text "not valid json". -/
theorem BanditStartAnalysis_malformed_witness :
    BanditStartAnalysis (exampleEnv "not valid json" (notJSON 'o') []) "cid"
        "not valid json" "rid" =
        [Event.logError "BanditStartAnalysis" "BANDIT" 1006 "not valid json"
          "invalid character 'o' looking for beginning of value"]
    ∧ verdictWrites (BanditStartAnalysis (exampleEnv "not valid json" (notJSON 'o') []) "cid"
        "not valid json" "rid") = []
    ∧ deliveries (BanditStartAnalysis (exampleEnv "not valid json" (notJSON 'o') []) "cid"
        "not valid json" "rid") = []
    ∧ logCodes (BanditStartAnalysis (exampleEnv "not valid json" (notJSON 'o') []) "cid"
        "not valid json" "rid") = [1006] :=
  BanditStartAnalysis_malformed _ "cid" "not valid json" "rid"
    "invalid character 'o' looking for beginning of value" (by decide) rfl

/-- C6 (counterexample): `assertReportRaw` deserializes (errors field `[]`, one finding) and
BanditStartAnalysis produces two verdicts for it, an error verdict and then a passed verdict. -/
theorem BanditStartAnalysis_one_verdict_counterexample :
    (exampleEnv assertReportRaw (Except.ok assertReport) []).jsonUnmarshal assertReportRaw =
        Except.ok assertReport
    ∧ verdictWrites (BanditStartAnalysis
        (exampleEnv assertReportRaw (Except.ok assertReport) [])
        "cid" assertReportRaw "rid") =
      [("Internal error running Bandit.", "error", "cid"),
       ("No issues found.", "passed", "cid")]
    ∧ (verdictWrites (BanditStartAnalysis
        (exampleEnv assertReportRaw (Except.ok assertReport) [])
        "cid" assertReportRaw "rid")).length ≠ 1 := by
  refine ⟨rfl, ?_, ?_⟩ <;> decide

/-- C6 (amended): for a raw output that does not contain "ERROR_CLONING" and deserializes into
a BanditOutput whose findings are empty or whose errors payload is absent, the invocation makes
exactly one verdict write, keyed by the CID, and its message and status are
`classify banditResult.Results`, a function of the BanditOutput alone (independent of the
collaborators, of the raw text and of the identifiers). -/
theorem BanditStartAnalysis_one_verdict (env : Env) (CID cOutput RID : String)
    (banditResult : BanditOutput)
    (hclone : strings.Contains cOutput "ERROR_CLONING" = false)
    (hparse : env.jsonUnmarshal cOutput = Except.ok banditResult)
    (hone : banditResult.Results = [] ∨ banditResult.Errors = none) :
    verdictWrites (BanditStartAnalysis env CID cOutput RID) =
      [((classify banditResult.Results).1, (classify banditResult.Results).2, CID)] := by
  by_cases hempty : banditResult.Results = []
  · rw [trace_of_no_findings env CID cOutput RID banditResult hclone hparse hempty, hempty]
    rfl
  · have herr : banditResult.Errors = none := hone.resolve_left hempty
    have hlen : ¬ banditResult.Results.length = 0 := fun h =>
      hempty (List.length_eq_zero.mp h)
    simp [BanditStartAnalysis, parseAndAnalyse, hclone, hparse, hlen, herr,
      verdictWrites_classifyAndDeliver, verdictWrites]

/-- C6 (amended) at a concrete input: the report `mixedReportRaw` (no errors key). -/
theorem BanditStartAnalysis_one_verdict_witness :
    verdictWrites (BanditStartAnalysis (exampleEnv mixedReportRaw (Except.ok mixedReport) [])
        "cid" mixedReportRaw "rid") =
      [((classify mixedReport.Results).1, (classify mixedReport.Results).2, "cid")] :=
  BanditStartAnalysis_one_verdict _ "cid" mixedReportRaw "rid" mixedReport
    (by decide) rfl (Or.inr rfl)

/-- C7: prepareHuskyCIBanditOutput is a total function, and for every BanditOutput each bucket
is the findings of that severity, kept in input order and mapped to their records: LOW bucket
for "LOW", MEDIUM bucket for "MEDIUM", HIGH bucket for "HIGH".  So the record of a finding with
one of these severities is in the matching bucket and in neither of the other two. -/
theorem prepareHuskyCIBanditOutput_buckets_in_order (banditOutput : BanditOutput) :
    ((prepareHuskyCIBanditOutput banditOutput).LowVulnsBandit =
        (banditOutput.Results.filter (fun i => decide (i.IssueSeverity = "LOW"))).map banditVulnOf
      ∧ (prepareHuskyCIBanditOutput banditOutput).MediumVulnsBandit =
        (banditOutput.Results.filter
          (fun i => decide (i.IssueSeverity = "MEDIUM"))).map banditVulnOf
      ∧ (prepareHuskyCIBanditOutput banditOutput).HighVulnsBandit =
        (banditOutput.Results.filter
          (fun i => decide (i.IssueSeverity = "HIGH"))).map banditVulnOf)
    ∧ (∀ issue ∈ banditOutput.Results, issue.IssueSeverity = "LOW" →
        banditVulnOf issue ∈ (prepareHuskyCIBanditOutput banditOutput).LowVulnsBandit
        ∧ banditVulnOf issue ∉ (prepareHuskyCIBanditOutput banditOutput).MediumVulnsBandit
        ∧ banditVulnOf issue ∉ (prepareHuskyCIBanditOutput banditOutput).HighVulnsBandit)
    ∧ (∀ issue ∈ banditOutput.Results, issue.IssueSeverity = "MEDIUM" →
        banditVulnOf issue ∉ (prepareHuskyCIBanditOutput banditOutput).LowVulnsBandit
        ∧ banditVulnOf issue ∈ (prepareHuskyCIBanditOutput banditOutput).MediumVulnsBandit
        ∧ banditVulnOf issue ∉ (prepareHuskyCIBanditOutput banditOutput).HighVulnsBandit)
    ∧ (∀ issue ∈ banditOutput.Results, issue.IssueSeverity = "HIGH" →
        banditVulnOf issue ∉ (prepareHuskyCIBanditOutput banditOutput).LowVulnsBandit
        ∧ banditVulnOf issue ∉ (prepareHuskyCIBanditOutput banditOutput).MediumVulnsBandit
        ∧ banditVulnOf issue ∈ (prepareHuskyCIBanditOutput banditOutput).HighVulnsBandit) := by
  obtain ⟨hl, hm, hh⟩ := prepare_buckets banditOutput
  refine ⟨⟨hl, hm, hh⟩, ?_, ?_, ?_⟩
  · intro issue hmem hs
    rw [hl, hm, hh]
    exact ⟨banditVulnOf_mem_bucket hmem hs,
      banditVulnOf_not_mem_bucket (by rw [hs]; decide),
      banditVulnOf_not_mem_bucket (by rw [hs]; decide)⟩
  · intro issue hmem hs
    rw [hl, hm, hh]
    exact ⟨banditVulnOf_not_mem_bucket (by rw [hs]; decide),
      banditVulnOf_mem_bucket hmem hs,
      banditVulnOf_not_mem_bucket (by rw [hs]; decide)⟩
  · intro issue hmem hs
    rw [hl, hm, hh]
    exact ⟨banditVulnOf_not_mem_bucket (by rw [hs]; decide),
      banditVulnOf_not_mem_bucket (by rw [hs]; decide),
      banditVulnOf_mem_bucket hmem hs⟩

/-- C7 at a concrete input: the five findings of `variedReport`; the two MEDIUM findings keep
their order. -/
theorem prepareHuskyCIBanditOutput_buckets_in_order_witness :
    (prepareHuskyCIBanditOutput variedReport).LowVulnsBandit = [banditVulnOf assertIssue]
    ∧ (prepareHuskyCIBanditOutput variedReport).MediumVulnsBandit =
        [banditVulnOf evalIssue, banditVulnOf pickleIssue]
    ∧ (prepareHuskyCIBanditOutput variedReport).HighVulnsBandit = [banditVulnOf shellIssue] :=
  have h := (prepareHuskyCIBanditOutput_buckets_in_order variedReport).1
  ⟨h.1.trans (by decide), h.2.1.trans (by decide), h.2.2.trans (by decide)⟩

/-- C8: the lengths of the LOW, MEDIUM and HIGH buckets of prepareHuskyCIBanditOutput plus the
number of input findings whose IssueSeverity is none of "LOW", "MEDIUM", "HIGH" add up to the
number of input findings. -/
theorem prepareHuskyCIBanditOutput_count (banditOutput : BanditOutput) :
    (prepareHuskyCIBanditOutput banditOutput).LowVulnsBandit.length
      + (prepareHuskyCIBanditOutput banditOutput).MediumVulnsBandit.length
      + (prepareHuskyCIBanditOutput banditOutput).HighVulnsBandit.length
      + banditOutput.Results.countP (fun i => decide (i.IssueSeverity ≠ "LOW"
          ∧ i.IssueSeverity ≠ "MEDIUM" ∧ i.IssueSeverity ≠ "HIGH"))
    = banditOutput.Results.length := by
  obtain ⟨hl, hm, hh⟩ := prepare_buckets banditOutput
  rw [hl, hm, hh]
  simp only [List.length_map]
  exact severity_partition banditOutput.Results

/-- C8 at a concrete input: `variedReport` has five findings, one of them of unknown
severity. -/
theorem prepareHuskyCIBanditOutput_count_witness :
    (prepareHuskyCIBanditOutput variedReport).LowVulnsBandit.length
      + (prepareHuskyCIBanditOutput variedReport).MediumVulnsBandit.length
      + (prepareHuskyCIBanditOutput variedReport).HighVulnsBandit.length
      + 1 = 5 :=
  (prepareHuskyCIBanditOutput_count variedReport).trans (by decide)

/-- C9: in the result of prepareHuskyCIBanditOutput every record of the LOW bucket has Severity
"LOW", every record of the MEDIUM bucket "MEDIUM" and every record of the HIGH bucket "HIGH",
so no record lies in two buckets; one pass of the loop body adds at most one record over all
buckets; and a finding whose IssueSeverity is none of the three strings (for instance "",
"high" or "CRITICAL") leaves every bucket as it was, so that removing it from the input does
not change the result. -/
theorem prepareHuskyCIBanditOutput_bucket_severity (banditOutput : BanditOutput) :
    (∀ v ∈ (prepareHuskyCIBanditOutput banditOutput).LowVulnsBandit, v.Severity = "LOW")
    ∧ (∀ v ∈ (prepareHuskyCIBanditOutput banditOutput).MediumVulnsBandit,
        v.Severity = "MEDIUM")
    ∧ (∀ v ∈ (prepareHuskyCIBanditOutput banditOutput).HighVulnsBandit, v.Severity = "HIGH")
    ∧ (∀ v, ¬(v ∈ (prepareHuskyCIBanditOutput banditOutput).LowVulnsBandit
            ∧ v ∈ (prepareHuskyCIBanditOutput banditOutput).MediumVulnsBandit)
        ∧ ¬(v ∈ (prepareHuskyCIBanditOutput banditOutput).LowVulnsBandit
            ∧ v ∈ (prepareHuskyCIBanditOutput banditOutput).HighVulnsBandit)
        ∧ ¬(v ∈ (prepareHuskyCIBanditOutput banditOutput).MediumVulnsBandit
            ∧ v ∈ (prepareHuskyCIBanditOutput banditOutput).HighVulnsBandit))
    ∧ (∀ acc issue,
        (prepareStep acc issue).LowVulnsBandit.length
          + (prepareStep acc issue).MediumVulnsBandit.length
          + (prepareStep acc issue).HighVulnsBandit.length
        ≤ acc.LowVulnsBandit.length + acc.MediumVulnsBandit.length
          + acc.HighVulnsBandit.length + 1)
    ∧ (∀ acc issue, issue.IssueSeverity ≠ "LOW" → issue.IssueSeverity ≠ "MEDIUM" →
        issue.IssueSeverity ≠ "HIGH" → prepareStep acc issue = acc)
    ∧ (∀ acc issue, issue.IssueSeverity = "" ∨ issue.IssueSeverity = "high"
        ∨ issue.IssueSeverity = "CRITICAL" → prepareStep acc issue = acc)
    ∧ (∀ before after issue, banditOutput.Results = before ++ issue :: after →
        issue.IssueSeverity ≠ "LOW" → issue.IssueSeverity ≠ "MEDIUM" →
        issue.IssueSeverity ≠ "HIGH" →
        prepareHuskyCIBanditOutput banditOutput =
          prepareHuskyCIBanditOutput
            { Errors := banditOutput.Errors, Results := before ++ after }) := by
  obtain ⟨hl, hm, hh⟩ := prepare_buckets banditOutput
  have sl : ∀ v ∈ (prepareHuskyCIBanditOutput banditOutput).LowVulnsBandit,
      v.Severity = "LOW" := fun v hv => (mem_bucket_severity (hl ▸ hv)).1
  have sm : ∀ v ∈ (prepareHuskyCIBanditOutput banditOutput).MediumVulnsBandit,
      v.Severity = "MEDIUM" := fun v hv => (mem_bucket_severity (hm ▸ hv)).1
  have sh : ∀ v ∈ (prepareHuskyCIBanditOutput banditOutput).HighVulnsBandit,
      v.Severity = "HIGH" := fun v hv => (mem_bucket_severity (hh ▸ hv)).1
  refine ⟨sl, sm, sh, ?_, prepareStep_total_le, prepareStep_of_other, ?_, ?_⟩
  · intro v
    refine ⟨?_, ?_, ?_⟩
    · rintro ⟨h1, h2⟩
      have := (sl v h1).symm.trans (sm v h2)
      exact absurd this (by decide)
    · rintro ⟨h1, h2⟩
      have := (sl v h1).symm.trans (sh v h2)
      exact absurd this (by decide)
    · rintro ⟨h1, h2⟩
      have := (sm v h1).symm.trans (sh v h2)
      exact absurd this (by decide)
  · intro acc issue h
    apply prepareStep_of_other <;> rcases h with h | h | h <;> rw [h] <;> decide
  · intro before after issue hres h1 h2 h3
    simp only [prepareHuskyCIBanditOutput, hres, prepareLoop_append, prepareLoop,
      prepareStep_of_other _ issue h1 h2 h3]

/-- C9 at a concrete input: dropping the finding of severity "high" from `variedReport` gives
the same buckets. -/
theorem prepareHuskyCIBanditOutput_bucket_severity_witness :
    prepareHuskyCIBanditOutput variedReport =
      prepareHuskyCIBanditOutput
        { Errors := none, Results := [shellIssue, evalIssue, assertIssue, pickleIssue] } :=
  (prepareHuskyCIBanditOutput_bucket_severity variedReport).2.2.2.2.2.2.2
    [shellIssue, evalIssue] [assertIssue, pickleIssue] lowerCaseIssue rfl
    (by decide) (by decide) (by decide)

/-- C10: every record that prepareHuskyCIBanditOutput places in a bucket comes from a finding
of the input by the direct field mapping: Language "Python", SecurityTool "Bandit", Severity,
Confidence, Details, File and Code copied from IssueSeverity, IssueConfidence, IssueText,
Filename and Code, and Line the decimal text of LineNumber, which reads back as LineNumber
(zero is "0", a negative number has a leading "-"); replacing TestID, TestName and LineRange
in every finding does not change the result. -/
theorem prepareHuskyCIBanditOutput_field_mapping (banditOutput : BanditOutput) :
    (∀ v, v ∈ (prepareHuskyCIBanditOutput banditOutput).LowVulnsBandit
        ∨ v ∈ (prepareHuskyCIBanditOutput banditOutput).MediumVulnsBandit
        ∨ v ∈ (prepareHuskyCIBanditOutput banditOutput).HighVulnsBandit →
      ∃ issue ∈ banditOutput.Results,
        v.Language = "Python" ∧ v.SecurityTool = "Bandit"
        ∧ v.Severity = issue.IssueSeverity ∧ v.Confidence = issue.IssueConfidence
        ∧ v.Details = issue.IssueText ∧ v.File = issue.Filename ∧ v.Code = issue.Code
        ∧ v.Line = strconv.Itoa issue.LineNumber
        ∧ parseDecimal v.Line = some issue.LineNumber)
    ∧ strconv.Itoa 0 = "0" ∧ strconv.Itoa (-42) = "-42" ∧ strconv.Itoa 1207 = "1207"
    ∧ (∀ (testID testName : String) (lineRange : List Int),
        prepareHuskyCIBanditOutput banditOutput =
          prepareHuskyCIBanditOutput
            { Errors := banditOutput.Errors
              Results := banditOutput.Results.map (fun issue =>
                { issue with TestID := testID, TestName := testName,
                             LineRange := lineRange }) }) := by
  obtain ⟨hl, hm, hh⟩ := prepare_buckets banditOutput
  refine ⟨?_, by decide, by decide, by decide, ?_⟩
  · intro v hv
    have hex : ∃ issue ∈ banditOutput.Results, v = banditVulnOf issue := by
      rcases hv with h | h | h
      · obtain ⟨_, issue, hmem, _, hv⟩ := mem_bucket_severity (hl ▸ h)
        exact ⟨issue, hmem, hv⟩
      · obtain ⟨_, issue, hmem, _, hv⟩ := mem_bucket_severity (hm ▸ h)
        exact ⟨issue, hmem, hv⟩
      · obtain ⟨_, issue, hmem, _, hv⟩ := mem_bucket_severity (hh ▸ h)
        exact ⟨issue, hmem, hv⟩
    obtain ⟨issue, hmem, rfl⟩ := hex
    exact ⟨issue, hmem, rfl, rfl, rfl, rfl, rfl, rfl, rfl, rfl, parseDecimal_Itoa _⟩
  · intro testID testName lineRange
    have key : ∀ (rs : List Result) (acc : HuskyCIBanditOutput),
        prepareLoop rs acc = prepareLoop (rs.map (fun issue =>
          { issue with TestID := testID, TestName := testName, LineRange := lineRange }))
          acc := by
      intro rs
      induction rs with
      | nil => intro acc; rfl
      | cons issue rest ih =>
        intro acc
        simp only [List.map_cons, prepareLoop]
        rw [ih]
        rfl
    exact key _ _

/-- C10 at a concrete input: the record with Line "0" in the MEDIUM bucket of `variedReport`
comes from a finding with these fields and LineNumber 0. -/
theorem prepareHuskyCIBanditOutput_field_mapping_witness :
    ∃ issue ∈ variedReport.Results,
      "Python" = "Python" ∧ "Bandit" = "Bandit"
      ∧ "MEDIUM" = issue.IssueSeverity ∧ "HIGH" = issue.IssueConfidence
      ∧ "Pickle library appears to be in use, possible security issue." = issue.IssueText
      ∧ "./store.py" = issue.Filename ∧ "pickle.loads(blob)" = issue.Code
      ∧ "0" = strconv.Itoa issue.LineNumber
      ∧ parseDecimal "0" = some issue.LineNumber :=
  (prepareHuskyCIBanditOutput_field_mapping variedReport).1
    { Language := "Python"
      SecurityTool := "Bandit"
      Severity := "MEDIUM"
      Confidence := "HIGH"
      Details := "Pickle library appears to be in use, possible security issue."
      File := "./store.py"
      Line := "0"
      Code := "pickle.loads(blob)" }
    (Or.inr (Or.inl (by decide)))

/-- C11: for a well-formed raw output with findings, when no verdict write returns an error,
the invocation is the optional clone-error write, the optional internal-error write, the
classification verdict write and then, as its last call, one call of
updateHuskyCIResultsBasedOnRID with the given RID, the tool name "bandit" and the deserialized
BanditOutput itself (all findings, in their order); this holds whether the verdict is
"passed" or "failed". -/
theorem BanditStartAnalysis_delivers_once (env : Env) (CID cOutput RID : String)
    (banditResult : BanditOutput)
    (hparse : env.jsonUnmarshal cOutput = Except.ok banditResult)
    (hne : banditResult.Results ≠ [])
    (hw : ∀ t msg status, env.persistFails t
      (Event.updateInfoAndResultBasedOnCID msg status CID) = false) :
    deliveries (BanditStartAnalysis env CID cOutput RID) = [(RID, "bandit", banditResult)]
    ∧ (∃ before, BanditStartAnalysis env CID cOutput RID =
        before ++ [Event.updateInfoAndResultBasedOnCID (classify banditResult.Results).1
            (classify banditResult.Results).2 CID,
          Event.updateHuskyCIResultsBasedOnRID RID "bandit" banditResult]
        ∧ deliveries before = [])
    ∧ ((classify banditResult.Results).2 = "passed"
        ∨ (classify banditResult.Results).2 = "failed") := by
  have ht := trace_of_writes_ok env CID cOutput RID banditResult hparse hne hw
  refine ⟨?_, ?_, ?_⟩
  · rw [ht]
    by_cases hs : strings.Contains cOutput "ERROR_CLONING" = true <;>
      by_cases he : banditResult.Errors = none <;>
      simp [hs, he, deliveries]
  · refine ⟨_, ht, ?_⟩
    by_cases hs : strings.Contains cOutput "ERROR_CLONING" = true <;>
      by_cases he : banditResult.Errors = none <;>
      simp [hs, he, deliveries]
  · rcases classify_cases banditResult.Results with h | h <;> rw [h]
    · exact Or.inr rfl
    · exact Or.inl rfl

/-- C11 at concrete inputs: `mixedReportRaw` (verdict failed) and `assertReportRaw` (verdict
passed, errors payload present); the delivery itself may return an error. -/
theorem BanditStartAnalysis_delivers_once_witness :
    deliveries (BanditStartAnalysis
        (exampleEnv mixedReportRaw (Except.ok mixedReport)
          [Event.updateHuskyCIResultsBasedOnRID "rid" "bandit" mixedReport])
        "cid" mixedReportRaw "rid") = [("rid", "bandit", mixedReport)]
    ∧ deliveries (BanditStartAnalysis
        (exampleEnv assertReportRaw (Except.ok assertReport) [])
        "cid" assertReportRaw "rid") = [("rid", "bandit", assertReport)] :=
  ⟨(BanditStartAnalysis_delivers_once _ "cid" mixedReportRaw "rid" mixedReport rfl
      (by decide) (fun _ _ _ => by simp [exampleEnv])).1,
   (BanditStartAnalysis_delivers_once _ "cid" assertReportRaw "rid" assertReport rfl
      (by decide) (fun _ _ _ => by simp [exampleEnv])).1⟩

/-- C12: for a well-formed raw output without "ERROR_CLONING" and with findings, the verdict
("Internal error running Bandit.", "error") keyed by the CID is written exactly when the errors
payload of the parsed output is present (not nil).  When it is present and no verdict write
returns an error, the invocation does not stop there: its calls are the error verdict write,
the classification verdict write and the delivery of the parsed output, in that order. -/
theorem BanditStartAnalysis_internal_error (env : Env) (CID cOutput RID : String)
    (banditResult : BanditOutput)
    (hclone : strings.Contains cOutput "ERROR_CLONING" = false)
    (hparse : env.jsonUnmarshal cOutput = Except.ok banditResult)
    (hne : banditResult.Results ≠ []) :
    (("Internal error running Bandit.", "error", CID) ∈
        verdictWrites (BanditStartAnalysis env CID cOutput RID)
      ↔ banditResult.Errors ≠ none)
    ∧ (banditResult.Errors ≠ none →
        (∀ t msg status, env.persistFails t
          (Event.updateInfoAndResultBasedOnCID msg status CID) = false) →
        verdictWrites (BanditStartAnalysis env CID cOutput RID) =
          [("Internal error running Bandit.", "error", CID),
           ((classify banditResult.Results).1, (classify banditResult.Results).2, CID)]
        ∧ BanditStartAnalysis env CID cOutput RID =
          [Event.updateInfoAndResultBasedOnCID "Internal error running Bandit." "error" CID,
           Event.updateInfoAndResultBasedOnCID (classify banditResult.Results).1
            (classify banditResult.Results).2 CID,
           Event.updateHuskyCIResultsBasedOnRID RID "bandit" banditResult]) := by
  refine ⟨⟨?_, ?_⟩, ?_⟩
  · intro hmem herr
    rw [trace_of_plain_report env CID cOutput RID banditResult hclone hparse hne herr,
      verdictWrites_classifyAndDeliver] at hmem
    rcases classify_cases banditResult.Results with h | h <;> rw [h] at hmem <;>
      simp [verdictWrites] at hmem
  · intro herr
    rw [trace_of_errors_report env CID cOutput RID banditResult hclone hparse hne herr]
    split
    · simp [verdictWrites]
    · simp [verdictWrites_classifyAndDeliver, verdictWrites]
  · intro herr hw
    have ht := trace_of_writes_ok env CID cOutput RID banditResult hparse hne hw
    simp only [hclone, herr, Bool.false_eq_true, if_false, ne_eq, not_false_eq_true, if_true,
      List.nil_append, List.singleton_append] at ht
    rw [ht]
    exact ⟨rfl, rfl⟩

/-- C12 at a concrete input: `assertReportRaw`, whose errors field is `[]`. -/
theorem BanditStartAnalysis_internal_error_witness :
    verdictWrites (BanditStartAnalysis (exampleEnv assertReportRaw (Except.ok assertReport) [])
        "cid" assertReportRaw "rid") =
      [("Internal error running Bandit.", "error", "cid"),
       ((classify assertReport.Results).1, (classify assertReport.Results).2, "cid")]
    ∧ BanditStartAnalysis (exampleEnv assertReportRaw (Except.ok assertReport) [])
        "cid" assertReportRaw "rid" =
      [Event.updateInfoAndResultBasedOnCID "Internal error running Bandit." "error" "cid",
       Event.updateInfoAndResultBasedOnCID (classify assertReport.Results).1
        (classify assertReport.Results).2 "cid",
       Event.updateHuskyCIResultsBasedOnRID "rid" "bandit" assertReport] :=
  (BanditStartAnalysis_internal_error _ "cid" assertReportRaw "rid" assertReport
    (by decide) rfl (by decide)).2 (by decide) (fun _ _ _ => by simp [exampleEnv])

/-- C13 (counterexample): on `mixedReportRaw`, an invocation whose delivery call returns an
error and one whose delivery call succeeds make exactly the same calls, the delivery being the
last one; BanditStartAnalysis has no result value, so its caller is given nothing that tells
the two apart. -/
theorem BanditStartAnalysis_delivery_failure_counterexample :
    (exampleEnv mixedReportRaw (Except.ok mixedReport)
        [Event.updateHuskyCIResultsBasedOnRID "rid" "bandit" mixedReport]).persistFails
        [Event.updateInfoAndResultBasedOnCID "Issues found." "failed" "cid"]
        (Event.updateHuskyCIResultsBasedOnRID "rid" "bandit" mixedReport) = true
    ∧ (exampleEnv mixedReportRaw (Except.ok mixedReport) []).persistFails
        [Event.updateInfoAndResultBasedOnCID "Issues found." "failed" "cid"]
        (Event.updateHuskyCIResultsBasedOnRID "rid" "bandit" mixedReport) = false
    ∧ BanditStartAnalysis (exampleEnv mixedReportRaw (Except.ok mixedReport)
        [Event.updateHuskyCIResultsBasedOnRID "rid" "bandit" mixedReport])
        "cid" mixedReportRaw "rid" =
      [Event.updateInfoAndResultBasedOnCID "Issues found." "failed" "cid",
       Event.updateHuskyCIResultsBasedOnRID "rid" "bandit" mixedReport]
    ∧ BanditStartAnalysis (exampleEnv mixedReportRaw (Except.ok mixedReport) [])
        "cid" mixedReportRaw "rid" =
      [Event.updateInfoAndResultBasedOnCID "Issues found." "failed" "cid",
       Event.updateHuskyCIResultsBasedOnRID "rid" "bandit" mixedReport] := by
  refine ⟨?_, ?_, ?_, ?_⟩ <;> decide

/-- C13 (amended): the outcome of the delivery call is not observed.  Two invocations on the
same input whose collaborators decode the raw output alike and answer the verdict writes alike
make the same calls, whatever updateHuskyCIResultsBasedOnRID returns in each; the delivery is
made at most once, and when it is made it is the last call of the invocation. -/
theorem BanditStartAnalysis_delivery_outcome_unobserved (env env2 : Env)
    (CID cOutput RID : String)
    (hjson : env.jsonUnmarshal cOutput = env2.jsonUnmarshal cOutput)
    (hwrites : ∀ t msg status, env.persistFails t
        (Event.updateInfoAndResultBasedOnCID msg status CID) =
      env2.persistFails t (Event.updateInfoAndResultBasedOnCID msg status CID)) :
    BanditStartAnalysis env CID cOutput RID = BanditStartAnalysis env2 CID cOutput RID
    ∧ (deliveries (BanditStartAnalysis env CID cOutput RID)).length ≤ 1
    ∧ deliveries (BanditStartAnalysis env CID cOutput RID).dropLast = [] :=
  ⟨trace_congr env env2 CID cOutput RID hjson hwrites,
   deliveries_length_BanditStartAnalysis env CID cOutput RID,
   deliveries_dropLast_BanditStartAnalysis env CID cOutput RID⟩

/-- C13 (amended) at a concrete input: `assertReportRaw`, once with the delivery returning an
error and once with every call succeeding. -/
theorem BanditStartAnalysis_delivery_outcome_unobserved_witness :
    BanditStartAnalysis (exampleEnv assertReportRaw (Except.ok assertReport)
        [Event.updateHuskyCIResultsBasedOnRID "rid" "bandit" assertReport])
        "cid" assertReportRaw "rid" =
      BanditStartAnalysis (exampleEnv assertReportRaw (Except.ok assertReport) [])
        "cid" assertReportRaw "rid"
    ∧ (deliveries (BanditStartAnalysis (exampleEnv assertReportRaw (Except.ok assertReport)
        [Event.updateHuskyCIResultsBasedOnRID "rid" "bandit" assertReport])
        "cid" assertReportRaw "rid")).length ≤ 1
    ∧ deliveries (BanditStartAnalysis (exampleEnv assertReportRaw (Except.ok assertReport)
        [Event.updateHuskyCIResultsBasedOnRID "rid" "bandit" assertReport])
        "cid" assertReportRaw "rid").dropLast = [] :=
  BanditStartAnalysis_delivery_outcome_unobserved _ _ "cid" assertReportRaw "rid" rfl
    (fun _ _ _ => by simp [exampleEnv])

/-- C14: for a well-formed raw output without "ERROR_CLONING" whose errors payload is nil, the
invocation makes exactly one call of updateInfoAndResultBasedOnCID, keyed by the CID:
("No issues found.", "passed") when there is no finding, the classification verdict
otherwise. -/
theorem BanditStartAnalysis_single_write (env : Env) (CID cOutput RID : String)
    (banditResult : BanditOutput)
    (hclone : strings.Contains cOutput "ERROR_CLONING" = false)
    (hparse : env.jsonUnmarshal cOutput = Except.ok banditResult)
    (herr : banditResult.Errors = none) :
    (verdictWrites (BanditStartAnalysis env CID cOutput RID)).length = 1
    ∧ (banditResult.Results = [] →
        verdictWrites (BanditStartAnalysis env CID cOutput RID) =
          [("No issues found.", "passed", CID)])
    ∧ (banditResult.Results ≠ [] →
        verdictWrites (BanditStartAnalysis env CID cOutput RID) =
          [((classify banditResult.Results).1, (classify banditResult.Results).2, CID)]) := by
  have h1 : banditResult.Results = [] →
      verdictWrites (BanditStartAnalysis env CID cOutput RID) =
        [("No issues found.", "passed", CID)] := by
    intro hempty
    rw [trace_of_no_findings env CID cOutput RID banditResult hclone hparse hempty]
    rfl
  have h2 : banditResult.Results ≠ [] →
      verdictWrites (BanditStartAnalysis env CID cOutput RID) =
        [((classify banditResult.Results).1, (classify banditResult.Results).2, CID)] := by
    intro hne
    rw [trace_of_plain_report env CID cOutput RID banditResult hclone hparse hne herr,
      verdictWrites_classifyAndDeliver]
    rfl
  refine ⟨?_, h1, h2⟩
  by_cases hempty : banditResult.Results = []
  · rw [h1 hempty]; rfl
  · rw [h2 hempty]; rfl

/-- C14 at a concrete input: `mixedReportRaw` (no errors key), with the verdict write
returning an error. -/
theorem BanditStartAnalysis_single_write_witness :
    verdictWrites (BanditStartAnalysis
        (exampleEnv mixedReportRaw (Except.ok mixedReport)
          [Event.updateInfoAndResultBasedOnCID "Issues found." "failed" "cid"])
        "cid" mixedReportRaw "rid") = [("Issues found.", "failed", "cid")] :=
  ((BanditStartAnalysis_single_write _ "cid" mixedReportRaw "rid" mixedReport
    (by decide) rfl rfl).2.2 (by decide)).trans (by decide)

/-- C15: in every invocation, nothing follows a persistence call (a verdict write or the
delivery) that returned an error: no later verdict write, no delivery, no log entry; no call
occurs twice in the invocation; and if a verdict write returned an error, the parsed output is
not delivered at all. -/
theorem BanditStartAnalysis_ends_at_failure (env : Env) (CID cOutput RID : String) :
    (∀ t e rest, BanditStartAnalysis env CID cOutput RID = t ++ e :: rest →
        e.isPersistenceCall = true → env.persistFails t e = true → rest = [])
    ∧ (BanditStartAnalysis env CID cOutput RID).Nodup
    ∧ (∀ t msg status rest, BanditStartAnalysis env CID cOutput RID =
          t ++ Event.updateInfoAndResultBasedOnCID msg status CID :: rest →
        env.persistFails t (Event.updateInfoAndResultBasedOnCID msg status CID) = true →
        deliveries (BanditStartAnalysis env CID cOutput RID) = []) := by
  have hends : ∀ t e rest, BanditStartAnalysis env CID cOutput RID = t ++ e :: rest →
      e.isPersistenceCall = true → env.persistFails t e = true → rest = [] := by
    intro t e rest heq hp hf
    exact endsAtFailure_BanditStartAnalysis env CID cOutput RID t e rest heq hp
      (by rw [List.nil_append]; exact hf)
  refine ⟨hends, nodup_BanditStartAnalysis env CID cOutput RID, ?_⟩
  intro t msg status rest heq hf
  have hrest := hends t _ rest heq rfl hf
  subst hrest
  have hd := deliveries_dropLast_BanditStartAnalysis env CID cOutput RID
  rw [heq] at hd ⊢
  rw [List.dropLast_concat] at hd
  simp [hd, deliveries]

/-- C15 at a concrete input: on `mixedReportRaw` with the classification verdict write
returning an error, nothing is delivered. -/
theorem BanditStartAnalysis_ends_at_failure_witness :
    deliveries (BanditStartAnalysis (exampleEnv mixedReportRaw (Except.ok mixedReport)
        [Event.updateInfoAndResultBasedOnCID "Issues found." "failed" "cid"])
        "cid" mixedReportRaw "rid") = [] :=
  (BanditStartAnalysis_ends_at_failure (exampleEnv mixedReportRaw (Except.ok mixedReport)
      [Event.updateInfoAndResultBasedOnCID "Issues found." "failed" "cid"])
    "cid" mixedReportRaw "rid").2.2 [] "Issues found." "failed" [] (by decide) (by decide)

/-- C16: the classifier and the normalizer agree.  If the classification status is "failed",
the HIGH or the MEDIUM bucket of prepareHuskyCIBanditOutput holds a record with Confidence
"HIGH"; and if neither of the two buckets holds such a record, the classification verdict is
("No issues found.", "passed").  This holds for every BanditOutput, with or without
findings. -/
theorem classify_agrees_with_prepareHuskyCIBanditOutput (banditOutput : BanditOutput) :
    ((classify banditOutput.Results).2 = "failed" →
      ∃ v, (v ∈ (prepareHuskyCIBanditOutput banditOutput).HighVulnsBandit
          ∨ v ∈ (prepareHuskyCIBanditOutput banditOutput).MediumVulnsBandit)
        ∧ v.Confidence = "HIGH")
    ∧ ((¬ ∃ v, (v ∈ (prepareHuskyCIBanditOutput banditOutput).HighVulnsBandit
          ∨ v ∈ (prepareHuskyCIBanditOutput banditOutput).MediumVulnsBandit)
        ∧ v.Confidence = "HIGH") →
      classify banditOutput.Results = ("No issues found.", "passed")) := by
  obtain ⟨_, hm, hh⟩ := prepare_buckets banditOutput
  have key : (classify banditOutput.Results).2 = "failed" →
      ∃ v, (v ∈ (prepareHuskyCIBanditOutput banditOutput).HighVulnsBandit
          ∨ v ∈ (prepareHuskyCIBanditOutput banditOutput).MediumVulnsBandit)
        ∧ v.Confidence = "HIGH" := by
    intro hf
    obtain ⟨issue, hmem, hsev, hconf⟩ := (classify_failed_iff _).mp hf
    refine ⟨banditVulnOf issue, ?_, hconf⟩
    rcases hsev with hs | hs
    · left
      rw [hh]
      exact banditVulnOf_mem_bucket hmem hs
    · right
      rw [hm]
      exact banditVulnOf_mem_bucket hmem hs
  refine ⟨key, ?_⟩
  intro hno
  rcases classify_cases banditOutput.Results with h | h
  · exact absurd (key (by rw [h])) hno
  · exact h

/-- C16 at a concrete input: `variedReport` is classified "failed", and its MEDIUM or HIGH
bucket holds a record with Confidence "HIGH". -/
theorem classify_agrees_with_prepareHuskyCIBanditOutput_witness :
    (classify variedReport.Results).2 = "failed"
    ∧ ∃ v, (v ∈ (prepareHuskyCIBanditOutput variedReport).HighVulnsBandit
          ∨ v ∈ (prepareHuskyCIBanditOutput variedReport).MediumVulnsBandit)
        ∧ v.Confidence = "HIGH" :=
  ⟨by decide, (classify_agrees_with_prepareHuskyCIBanditOutput variedReport).1 (by decide)⟩

/-- C17: prepareHuskyCIBanditOutput distributes over concatenation of the findings: each
bucket of the result for `xs ++ ys` is the bucket for `xs` followed by the bucket for `ys`;
the result for no findings has three empty buckets; and the Errors field does not influence
the result. -/
theorem prepareHuskyCIBanditOutput_append (errors errorsX errorsY : Option String)
    (xs ys : List Result) :
    ((prepareHuskyCIBanditOutput { Errors := errors, Results := xs ++ ys }).LowVulnsBandit =
        (prepareHuskyCIBanditOutput { Errors := errorsX, Results := xs }).LowVulnsBandit
        ++ (prepareHuskyCIBanditOutput { Errors := errorsY, Results := ys }).LowVulnsBandit)
    ∧ ((prepareHuskyCIBanditOutput
          { Errors := errors, Results := xs ++ ys }).MediumVulnsBandit =
        (prepareHuskyCIBanditOutput { Errors := errorsX, Results := xs }).MediumVulnsBandit
        ++ (prepareHuskyCIBanditOutput { Errors := errorsY, Results := ys }).MediumVulnsBandit)
    ∧ ((prepareHuskyCIBanditOutput { Errors := errors, Results := xs ++ ys }).HighVulnsBandit =
        (prepareHuskyCIBanditOutput { Errors := errorsX, Results := xs }).HighVulnsBandit
        ++ (prepareHuskyCIBanditOutput { Errors := errorsY, Results := ys }).HighVulnsBandit)
    ∧ prepareHuskyCIBanditOutput { Errors := errors, Results := [] } =
        { LowVulnsBandit := [], MediumVulnsBandit := [], HighVulnsBandit := [] }
    ∧ prepareHuskyCIBanditOutput { Errors := errorsX, Results := xs } =
        prepareHuskyCIBanditOutput { Errors := errorsY, Results := xs } := by
  refine ⟨?_, ?_, ?_, rfl, rfl⟩
  · rw [(prepare_buckets _).1, (prepare_buckets _).1, (prepare_buckets _).1]
    simp only [List.filter_append, List.map_append]
  · rw [(prepare_buckets _).2.1, (prepare_buckets _).2.1, (prepare_buckets _).2.1]
    simp only [List.filter_append, List.map_append]
  · rw [(prepare_buckets _).2.2, (prepare_buckets _).2.2, (prepare_buckets _).2.2]
    simp only [List.filter_append, List.map_append]

/-- C17 at a concrete input: the findings of `variedReport` split after the second one. -/
theorem prepareHuskyCIBanditOutput_append_witness :
    (prepareHuskyCIBanditOutput variedReport).MediumVulnsBandit =
      (prepareHuskyCIBanditOutput
        { Errors := some "[]", Results := [shellIssue, evalIssue] }).MediumVulnsBandit
      ++ (prepareHuskyCIBanditOutput
        { Errors := none,
          Results := [lowerCaseIssue, assertIssue, pickleIssue] }).MediumVulnsBandit :=
  (prepareHuskyCIBanditOutput_append none (some "[]") none [shellIssue, evalIssue]
    [lowerCaseIssue, assertIssue, pickleIssue]).2.1

end analysis
